import Mathlib

/-!
Verification development for `src/ddi_zoo/src/model/drug_gcn.py`, the
drug-drug-interaction (DDI) model adapter `GCNModel` together with its
configuration dataclass `GCNConfig` and the three architecture presets
`tiny_architecture` / `base_architecture` / `large_architecture`.

The Python file is embedded shallowly:

* Python values reaching `get_cls` are modelled by `PyVal`
  (`None`, `int`, `torch.Tensor`, `tuple`, anything else);
* a tensor is its rank together with its nested array data, and the
  expression `x[:, -1, :]` is `Tensor.sliceLast` (it needs rank at least 3
  and a non-empty dimension 1, otherwise PyTorch raises `IndexError`);
* raising an exception is returning `Except.error` carrying a `PyErr`;
* the encoder (`DeeperGCN`) and the two classification-head classes are
  external collaborators, modelled as records of functions;
* the in-place mutation done by `register_classification_head` is modelled
  by returning the post-call model state together with the warning flag and
  the raised error, if any (`RegResult`).
-/

namespace DrugGCN

/-- The Python exceptions that the adapter's code paths can raise. -/
inductive PyErr where
  | keyError
  | valueError
  | indexError
  | notImplementedError
  deriving DecidableEq

/-- Nested array data of a tensor: either a scalar entry or an array of
subtrees (dimension by dimension). -/
inductive Tree where
  | scal : Int → Tree
  | arr : List Tree → Tree

/-- A `torch.Tensor` is modelled by its rank (number of dimensions, as the
shape metadata records it) together with its nested array data. -/
structure Tensor where
  rank : Nat
  data : Tree

/-- A Python value as the adapter sees it: `None`, an `int` (the `0`
returned by `get_cls` on `None`), a `torch.Tensor`, a `tuple`, or a value
of any other type. -/
inductive PyVal where
  | pynone : PyVal
  | int : Int → PyVal
  | tensor : Tensor → PyVal
  | tup : List PyVal → PyVal
  | other : String → PyVal

/-- Indexing `-1` along dimension 1 for every row along dimension 0: the
data part of `x[:, -1, :]`.  A row that is a scalar (no dimension 1 to
index) or an empty row (index `-1` out of bounds for a size-0 dimension)
raises `IndexError`, here `none`. -/
def sliceRows : List Tree → Option (List Tree)
  | [] => some []
  | Tree.scal _ :: _ => none
  | Tree.arr cs :: rs =>
    match cs.getLast? with
    | none => none
    | some e =>
      match sliceRows rs with
      | none => none
      | some rs' => some (e :: rs')

/-- The expression `x[:, -1, :]` (drug_gcn.py line 139).  PyTorch requires
the tensor to have rank at least 3 (three indexers) and dimension 1 to be
non-empty; the result keeps dimension 0, drops dimension 1, and keeps the
remaining dimensions, so its rank is one less. -/
def Tensor.sliceLast (t : Tensor) : Option Tensor :=
  if t.rank < 3 then none
  else
    match t.data with
    | Tree.scal _ => none
    | Tree.arr rows =>
      match sliceRows rows with
      | none => none
      | some rs => some ⟨t.rank - 1, Tree.arr rs⟩

/-- `GCNModel.get_cls` (drug_gcn.py lines 135-143): `None` gives the int
`0`; a tensor gives `x[:, -1, :]`; a tuple gives its first element (`x[0]`,
an `IndexError` when empty); anything else raises `ValueError`. -/
def get_cls (x : PyVal) : Except PyErr PyVal :=
  match x with
  | PyVal.pynone => Except.ok (PyVal.int 0)
  | PyVal.tensor t =>
    match t.sliceLast with
    | some t' => Except.ok (PyVal.tensor t')
    | none => Except.error PyErr.indexError
  | PyVal.tup [] => Except.error PyErr.indexError
  | PyVal.tup (y :: _) => Except.ok y
  | PyVal.int _ => Except.error PyErr.valueError
  | PyVal.other _ => Except.error PyErr.valueError

/-- Build a rank-3 tensor of shape `(batch, length, dim)` from its nested
entries. -/
def mk3 (xss : List (List (List Int))) : Tensor :=
  ⟨3, Tree.arr (xss.map (fun mat => Tree.arr (mat.map (fun row => Tree.arr (row.map Tree.scal)))))⟩

/-- Build a rank-2 tensor of shape `(batch, dim)` from its nested entries. -/
def mk2 (xs : List (List Int)) : Tensor :=
  ⟨2, Tree.arr (xs.map (fun row => Tree.arr (row.map Tree.scal)))⟩

/-- Spec-side description of the summary of a rank-3 `(batch, length, dim)`
sequence output: the slice at the last position, i.e. for each batch entry
the row at the last index of the length dimension. -/
def lastPositionSlice (xss : List (List (List Int))) : List (List Int) :=
  xss.map (fun mat => (mat.getLast?).getD [])

/-- The configuration dataclass `GCNConfig` (drug_gcn.py lines 19-46) with
its field defaults.  `max_source_positions` is an interpolation alias for a
top-level `model.max_positions` option and is never read by this file, so
it is omitted. -/
structure GCNConfig where
  dropout : Rat := 0.1
  max_positions : Nat := 512
  gnn_number_layer : Nat := 12
  gnn_dropout : Rat := 0.1
  conv_encode_edge : Bool := true
  gnn_embed_dim : Nat := 384
  gnn_aggr : String := "maxminmean"
  gnn_norm : String := "batch"
  gnn_activation_fn : String := "relu"
  classification_head_name : String := ""
  load_checkpoint_heads : Bool := false
  no_token_positional_embeddings : Bool := false
  pooler_activation_fn : String := "tanh"
  pooler_dropout : Rat := 0.0
  num_base_vector : Nat := 30
  vector_group_size : Nat := 5
  basic_vector_size : Nat := 3
  code_dim : Nat := 64
  dict_size : Nat := 200
  num_head : Nat := 8

/-- A drug graph is passed to the encoder as a dictionary of named graph
arguments (`**drug_a_graph`); its structure is opaque to the adapter. -/
abbrev Graph : Type := List (String × PyVal)

/-- The external `DeeperGCN` encoder: a callable taking the expanded graph
dictionary, the `features_only` flag and extra keyword arguments, returning
a pair whose second component the adapter discards; plus the optional
`output_features` attribute read through `getattr` at head registration. -/
structure Encoder where
  run : Graph → Bool → List (String × PyVal) → PyVal × PyVal
  output_features : Option Nat

/-- Modelled from the spec: the classification-head classes come from
`.heads`, a module of this repository that is not under `src/`.  Per the
spec's head contract a head is callable with `(summaryA, summaryB,
relation)` and exposes the three counterfactual variant calls
`forward_NoDelta`, `forward_deltaH`, `forward_deltaT` with the same
signature; per the spec's registration description it is sized by
`input_dim`, `inner_dim` and `num_classes`, with `out_proj.out_features`
holding the class count and `dense.out_features` holding the inner
dimension (the fields `register_classification_head` reads back). -/
structure Head where
  kind : String
  input_dim : Nat
  inner_dim : Nat
  num_classes : Option Nat
  actionvation_fn : String
  pooler_dropout : Rat
  forward : PyVal → PyVal → Int → PyVal
  forward_NoDelta : PyVal → PyVal → Int → PyVal
  forward_deltaH : PyVal → PyVal → Int → PyVal
  forward_deltaT : PyVal → PyVal → Int → PyVal

/-- Modelled from the spec: `BinaryClassMLPHead`, the head kind registered
under the name `bclsmlp`.  Its internal computation is out of scope (the
spec excludes head implementations), so its four callables are opaque
taggings of their arguments; only its sizing fields matter here. -/
def BinaryClassMLPHead (input_dim inner_dim : Nat) (num_classes : Option Nat)
    (actionvation_fn : String) (pooler_dropout : Rat) : Head :=
  { kind := "bclsmlp"
    input_dim := input_dim
    inner_dim := inner_dim
    num_classes := num_classes
    actionvation_fn := actionvation_fn
    pooler_dropout := pooler_dropout
    forward := fun a b r => PyVal.tup [PyVal.other "bclsmlp.forward", a, b, PyVal.int r]
    forward_NoDelta := fun a b r => PyVal.tup [PyVal.other "bclsmlp.NoDelta", a, b, PyVal.int r]
    forward_deltaH := fun a b r => PyVal.tup [PyVal.other "bclsmlp.deltaH", a, b, PyVal.int r]
    forward_deltaT := fun a b r => PyVal.tup [PyVal.other "bclsmlp.deltaT", a, b, PyVal.int r] }

/-- Modelled from the spec: `BinaryClassFeatIntegrationHead`, the head kind
registered under the name `bclsFeatInt`; same contract as
`BinaryClassMLPHead`. -/
def BinaryClassFeatIntegrationHead (input_dim inner_dim : Nat) (num_classes : Option Nat)
    (actionvation_fn : String) (pooler_dropout : Rat) : Head :=
  { kind := "bclsFeatInt"
    input_dim := input_dim
    inner_dim := inner_dim
    num_classes := num_classes
    actionvation_fn := actionvation_fn
    pooler_dropout := pooler_dropout
    forward := fun a b r => PyVal.tup [PyVal.other "bclsFeatInt.forward", a, b, PyVal.int r]
    forward_NoDelta := fun a b r => PyVal.tup [PyVal.other "bclsFeatInt.NoDelta", a, b, PyVal.int r]
    forward_deltaH := fun a b r => PyVal.tup [PyVal.other "bclsFeatInt.deltaH", a, b, PyVal.int r]
    forward_deltaT := fun a b r => PyVal.tup [PyVal.other "bclsFeatInt.deltaT", a, b, PyVal.int r] }

/-- A `GCNModel` instance: its `args`, its shared `encoder` and the
`nn.ModuleDict` of classification heads, modelled as an association list
keyed by the head name (insertion order preserved, as in a Python dict). -/
structure Model where
  args : GCNConfig
  encoder : Encoder
  classification_heads : List (String × Head)

/-- Dictionary lookup `self.classification_heads[name]`. -/
def lookupHead : List (String × Head) → String → Option Head
  | [], _ => none
  | (k, v) :: rest, n => if k = n then some v else lookupHead rest n

/-- Dictionary assignment `self.classification_heads[name] = head`: replace
in place when the key is present, append otherwise. -/
def insertHead : List (String × Head) → String → Head → List (String × Head)
  | [], n, h => [(n, h)]
  | (k, v) :: rest, n, h =>
    if k = n then (k, h) :: rest else (k, v) :: insertHead rest n h

/-- Lines 74-75 of each forward method: `if classification_head_name is not
None: features_only = True`; the flag actually handed to both encoder
invocations. -/
def effective_features_only (features_only : Bool) (classification_head_name : Option String) : Bool :=
  if classification_head_name.isSome then true else features_only

/-- `GCNModel.forward` (drug_gcn.py lines 64-85): run the encoder on each
drug graph with the effective `features_only` flag, pool each output with
`get_cls`, look the head up by name (a `KeyError` when absent, also when
the name is `None`), and apply it to the two summaries and the relation.
The two sequence arguments are accepted and ignored, as in the source. -/
def forward (m : Model) (drug_a_seq drug_b_seq : PyVal) (drug_a_graph drug_b_graph : Graph)
    (net_rel : Int) (features_only : Bool) (classification_head_name : Option String)
    (kwargs : List (String × PyVal)) : Except PyErr PyVal :=
  match get_cls (m.encoder.run drug_a_graph (effective_features_only features_only classification_head_name) kwargs).1,
        get_cls (m.encoder.run drug_b_graph (effective_features_only features_only classification_head_name) kwargs).1 with
  | Except.error e, _ => Except.error e
  | Except.ok _, Except.error e => Except.error e
  | Except.ok enc_a, Except.ok enc_b =>
    match classification_head_name with
    | none => Except.error PyErr.keyError
    | some n =>
      match lookupHead m.classification_heads n with
      | none => Except.error PyErr.keyError
      | some head => Except.ok (head.forward enc_a enc_b net_rel)

/-- `GCNModel.forward_cons_neg` (drug_gcn.py lines 87-111): as `forward`,
but additionally calls the head's three counterfactual variants on the same
three arguments and returns the quadruple `(x, x_deltaH, x_deltaT, x_ori)`. -/
def forward_cons_neg (m : Model) (drug_a_seq drug_b_seq : PyVal) (drug_a_graph drug_b_graph : Graph)
    (net_rel : Int) (features_only : Bool) (classification_head_name : Option String)
    (kwargs : List (String × PyVal)) : Except PyErr (PyVal × PyVal × PyVal × PyVal) :=
  match get_cls (m.encoder.run drug_a_graph (effective_features_only features_only classification_head_name) kwargs).1,
        get_cls (m.encoder.run drug_b_graph (effective_features_only features_only classification_head_name) kwargs).1 with
  | Except.error e, _ => Except.error e
  | Except.ok _, Except.error e => Except.error e
  | Except.ok enc_a, Except.ok enc_b =>
    match classification_head_name with
    | none => Except.error PyErr.keyError
    | some n =>
      match lookupHead m.classification_heads n with
      | none => Except.error PyErr.keyError
      | some head =>
        Except.ok (head.forward enc_a enc_b net_rel,
                   head.forward_deltaH enc_a enc_b net_rel,
                   head.forward_deltaT enc_a enc_b net_rel,
                   head.forward_NoDelta enc_a enc_b net_rel)

/-- `GCNModel.forward_embed` (drug_gcn.py lines 113-132): the same encoder
pass and pooling, returning the pair of summaries without any head. -/
def forward_embed (m : Model) (drug_a_seq drug_b_seq : PyVal) (drug_a_graph drug_b_graph : Graph)
    (net_rel : Int) (features_only : Bool) (classification_head_name : Option String)
    (kwargs : List (String × PyVal)) : Except PyErr (PyVal × PyVal) :=
  match get_cls (m.encoder.run drug_a_graph (effective_features_only features_only classification_head_name) kwargs).1,
        get_cls (m.encoder.run drug_b_graph (effective_features_only features_only classification_head_name) kwargs).1 with
  | Except.error e, _ => Except.error e
  | Except.ok _, Except.error e => Except.error e
  | Except.ok enc_a, Except.ok enc_b => Except.ok (enc_a, enc_b)

/-- `GCNModel.get_targets` (drug_gcn.py lines 145-146). -/
def get_targets (target : PyVal) (inp : PyVal) : PyVal := target

/-- `GCNModel.max_positions` (drug_gcn.py lines 180-181). -/
def max_positions (m : Model) : Nat := m.args.max_positions

/-- Outcome of a `register_classification_head` call: the model state after
the call (unchanged whenever the call raised before any assignment), the
`logger.warning` flag, and the raised exception, if any. -/
structure RegResult where
  model : Model
  warned : Bool
  err : Option PyErr

/-- `getattr(self.encoder, "output_features", self.args.gnn_embed_dim)`
(drug_gcn.py lines 162 and 171). -/
def headInputDim (m : Model) : Nat :=
  m.encoder.output_features.getD m.args.gnn_embed_dim

/-- `inner_dim or self.args.gnn_embed_dim` (drug_gcn.py lines 163 and 172),
with Python truthiness: both `None` and `0` fall back to the configured
embedding dimension. -/
def resolveInnerDim (m : Model) (inner_dim : Option Nat) : Nat :=
  match inner_dim with
  | none => m.args.gnn_embed_dim
  | some 0 => m.args.gnn_embed_dim
  | some (k + 1) => k + 1

/-- The head that a successful registration under `name` stores: the
`BinaryClassMLPHead` for `bclsmlp`, the `BinaryClassFeatIntegrationHead`
for `bclsFeatInt`, each sized exactly as in drug_gcn.py lines 161-176. -/
def builtHead (m : Model) (name : String) (num_classes inner_dim : Option Nat) : Head :=
  if name = "bclsmlp" then
    BinaryClassMLPHead (headInputDim m) (resolveInnerDim m inner_dim) num_classes
      m.args.pooler_activation_fn m.args.pooler_dropout
  else
    BinaryClassFeatIntegrationHead (headInputDim m) (resolveInnerDim m inner_dim) num_classes
      m.args.pooler_activation_fn m.args.pooler_dropout

/-- `GCNModel.register_classification_head` (drug_gcn.py lines 148-178):
when the name is already present, compare the requested `num_classes` and
`inner_dim` against the stored head's `out_proj.out_features` and
`dense.out_features` and warn on any difference; then store a fresh head of
the kind selected by the name, or raise `NotImplementedError` for any name
outside `bclsmlp` / `bclsFeatInt`, leaving the mapping untouched. -/
def register_classification_head (m : Model) (name : String)
    (num_classes inner_dim : Option Nat) : RegResult :=
  let warned :=
    match lookupHead m.classification_heads name with
    | some prev =>
      decide (num_classes ≠ prev.num_classes ∨ inner_dim ≠ some prev.inner_dim)
    | none => false
  if name = "bclsmlp" ∨ name = "bclsFeatInt" then
    let heads' := insertHead m.classification_heads name (builtHead m name num_classes inner_dim)
    { model := { m with classification_heads := heads' }, warned := warned, err := none }
  else
    { model := m, warned := warned, err := some PyErr.notImplementedError }

/-- A caller-supplied configuration namespace as the architecture presets
see it: each of the two fields they touch is either already set by the
caller or absent (`getattr` with a default). -/
structure ArchArgs where
  gnn_number_layer : Option Nat
  gnn_embed_dim : Option Nat

/-- `base_architecture` (drug_gcn.py lines 190-194): fill each field with
its default `6` / `384` unless the caller already set it. -/
def base_architecture (a : ArchArgs) : ArchArgs :=
  { gnn_number_layer := some (a.gnn_number_layer.getD 6)
    gnn_embed_dim := some (a.gnn_embed_dim.getD 384) }

/-- The default-filling step of `tiny_architecture` (drug_gcn.py lines
185-186). -/
def tiny_defaults (a : ArchArgs) : ArchArgs :=
  { gnn_number_layer := some (a.gnn_number_layer.getD 2)
    gnn_embed_dim := some (a.gnn_embed_dim.getD 384) }

/-- `tiny_architecture` (drug_gcn.py lines 183-187): fill defaults `2` /
`384`, then delegate to `base_architecture`. -/
def tiny_architecture (a : ArchArgs) : ArchArgs :=
  base_architecture (tiny_defaults a)

/-- The default-filling step of `large_architecture` (drug_gcn.py lines
198-199). -/
def large_defaults (a : ArchArgs) : ArchArgs :=
  { gnn_number_layer := some (a.gnn_number_layer.getD 12)
    gnn_embed_dim := some (a.gnn_embed_dim.getD 384) }

/-- `large_architecture` (drug_gcn.py lines 196-200): fill defaults `12` /
`384`, then delegate to `base_architecture`. -/
def large_architecture (a : ArchArgs) : ArchArgs :=
  base_architecture (large_defaults a)

/-- A default configuration, used by the concrete instances below. -/
def cfg0 : GCNConfig := {}

/-- A concrete encoder whose outputs pool successfully (`None` pools to the
int `0`). -/
def enc0 : Encoder :=
  { run := fun _ _ _ => (PyVal.pynone, PyVal.pynone), output_features := none }

/-- A freshly built model: no classification head registered yet. -/
def m0 : Model :=
  { args := cfg0, encoder := enc0, classification_heads := [] }

/-- A concrete `bclsmlp` head with `num_classes = 2` and `inner_dim = 384`. -/
def mlpHead0 : Head := BinaryClassMLPHead 384 384 (some 2) "tanh" 0

/-- A model that already has a head registered under `bclsmlp`. -/
def mH : Model :=
  { args := cfg0, encoder := enc0, classification_heads := [("bclsmlp", mlpHead0)] }

/-- An encoder that reports the `features_only` flag it received: its first
output is a tuple whose first element is `1` when the flag was true and `0`
otherwise, so the flag is observable through `get_cls` pooling. -/
def probeEncoder : Encoder :=
  { run := fun _ fo _ => (PyVal.tup [PyVal.int (if fo then 1 else 0)], PyVal.pynone)
    output_features := none }

/-- A model wired to the probing encoder. -/
def probeModel : Model :=
  { args := cfg0, encoder := probeEncoder, classification_heads := [] }

/-- Slicing the nested data of a rank-3 tensor built from nested entries
takes, for every batch row whose length dimension is non-empty, the last
entry along that dimension. -/
theorem sliceRows_mk3 (xss : List (List (List Int))) (h : ∀ mat ∈ xss, mat ≠ []) :
    sliceRows (xss.map (fun mat => Tree.arr (mat.map (fun row => Tree.arr (row.map Tree.scal))))) =
      some ((lastPositionSlice xss).map (fun row => Tree.arr (row.map Tree.scal))) := by
  induction xss with
  | nil => simp [sliceRows, lastPositionSlice]
  | cons mat rest ih =>
    obtain ⟨y, hy⟩ : ∃ y, mat.getLast? = some y := by
      have hne : mat ≠ [] := h mat (List.mem_cons_self mat rest)
      cases hv : mat.getLast? with
      | none => exact absurd (List.getLast?_eq_none_iff.mp hv) hne
      | some y => exact ⟨y, rfl⟩
    have hrest : ∀ m ∈ rest, m ≠ [] := fun m hm => h m (List.mem_cons_of_mem _ hm)
    simp [sliceRows, lastPositionSlice, List.getLast?_map, hy, ih hrest]

/-- C1: `get_cls` returns the int `0` on `None`; the first element,
unchanged, on a non-empty tuple; and on a rank-3 tensor of shape
`(batch, length, dim)` with at least one position, the last-position slice
`x[:, -1, :]`, whose shape is `(batch, dim)`. -/
theorem getCls_summary_extraction :
    get_cls PyVal.pynone = Except.ok (PyVal.int 0)
    ∧ (∀ (y : PyVal) (ys : List PyVal), get_cls (PyVal.tup (y :: ys)) = Except.ok y)
    ∧ (∀ xss : List (List (List Int)), (∀ mat ∈ xss, mat ≠ []) →
        get_cls (PyVal.tensor (mk3 xss)) = Except.ok (PyVal.tensor (mk2 (lastPositionSlice xss))))
    ∧ (∀ (xss : List (List (List Int))) (b d : Nat), xss.length = b →
        (∀ mat ∈ xss, mat ≠ [] ∧ ∀ row ∈ mat, row.length = d) →
        (lastPositionSlice xss).length = b
          ∧ ∀ row ∈ lastPositionSlice xss, row.length = d) := by
  refine ⟨rfl, fun y ys => rfl, fun xss h => ?_, fun xss b d hb hsh => ?_⟩
  · have hs := sliceRows_mk3 xss h
    simp [get_cls, mk3, mk2, Tensor.sliceLast, hs]
  · constructor
    · simpa [lastPositionSlice] using hb
    · intro row hrow
      simp only [lastPositionSlice, List.mem_map] at hrow
      obtain ⟨mat, hmat, hval⟩ := hrow
      obtain ⟨hne, hlen⟩ := hsh mat hmat
      obtain ⟨y, hy⟩ : ∃ y, mat.getLast? = some y := by
        cases hv : mat.getLast? with
        | none => exact absurd (List.getLast?_eq_none_iff.mp hv) hne
        | some y => exact ⟨y, rfl⟩
      have hmem : y ∈ mat := List.mem_of_getLast?_eq_some hy
      rw [hy] at hval
      simp only [Option.getD_some] at hval
      rw [← hval]
      exact hlen y hmem

/-- Witness for C1 at the concrete rank-3 input `[[[1, 2], [3, 4]]]` of
shape `(1, 2, 2)`: the summary is the last-position slice `[[3, 4]]`. -/
theorem getCls_summary_extraction_spot :
    get_cls (PyVal.tensor (mk3 [[[1, 2], [3, 4]]])) =
      Except.ok (PyVal.tensor (mk2 [[3, 4]])) :=
  getCls_summary_extraction.2.2.1 [[[1, 2], [3, 4]]] (by simp)

/-- No value is a fixed point of `get_cls`: `None` maps to the int `0`, an
int or other value raises, a successfully sliced tensor drops one rank, and
the first element of a tuple is a strict subterm of it. -/
theorem getCls_no_fixpoint (y : PyVal) : get_cls y ≠ Except.ok y := by
  cases y with
  | pynone => simp [get_cls]
  | int n => simp [get_cls]
  | other s => simp [get_cls]
  | tensor t =>
    obtain ⟨r, dt⟩ := t
    intro h
    rw [get_cls] at h
    cases hs : Tensor.sliceLast ⟨r, dt⟩ with
    | none => rw [hs] at h; exact Except.noConfusion h
    | some t' =>
      rw [hs] at h
      have ht : t' = ⟨r, dt⟩ := by
        have h1 := Except.ok.inj h
        exact PyVal.tensor.inj h1
      by_cases hr : r < 3
      · simp [Tensor.sliceLast, hr] at hs
      · cases dt with
        | scal v => simp [Tensor.sliceLast, hr] at hs
        | arr rows =>
          cases hrows : sliceRows rows with
          | none => simp [Tensor.sliceLast, hr, hrows] at hs
          | some rs =>
            rw [ht] at hs
            simp [Tensor.sliceLast, hr, hrows, Tensor.mk.injEq] at hs
            obtain ⟨h4, -⟩ := hs
            omega
  | tup xs =>
    cases xs with
    | nil => simp [get_cls]
    | cons y ys =>
      intro h
      rw [get_cls] at h
      have hy : y = PyVal.tup (y :: ys) := Except.ok.inj h
      have hsz : sizeOf y < sizeOf (PyVal.tup (y :: ys)) := by
        simp only [PyVal.tup.sizeOf_spec, List.cons.sizeOf_spec]
        omega
      rw [← hy] at hsz
      exact lt_irrefl _ hsz

/-- C2 (amended): summary extraction is not idempotent.  Whenever `get_cls`
succeeds on `x` with value `y`, applying `get_cls` a second time never
returns `y` again: it raises or yields a different value. -/
theorem getCls_second_application (x y : PyVal) (h : get_cls x = Except.ok y) :
    (get_cls x >>= get_cls) ≠ Except.ok y := by
  rw [h]
  simpa [bind, Except.bind] using getCls_no_fixpoint y

/-- Witness for C2 (amended) at `x = None`: the first application gives the
int `0`, and the second application does not give `0` back. -/
theorem getCls_second_application_spot :
    (get_cls PyVal.pynone >>= get_cls) ≠ Except.ok (PyVal.int 0) :=
  getCls_second_application PyVal.pynone (PyVal.int 0) rfl

/-- Counterexample to C2 as stated: on `x = None` the first application of
`get_cls` succeeds with the int `0`, but the second application raises
`ValueError` (an int is neither `None`, a tensor, nor a tuple), so
`get_cls (get_cls x)` is not `get_cls x`. -/
theorem getCls_idempotence_counterexample :
    get_cls PyVal.pynone = Except.ok (PyVal.int 0)
    ∧ (get_cls PyVal.pynone >>= get_cls) = Except.error PyErr.valueError :=
  ⟨rfl, rfl⟩

/-- C3: calling `forward` with a head name that is not in the head mapping
fails with a lookup error (`KeyError`), both when the name is an
unregistered string and when it is `None`; the encoder outputs only have to
pool successfully for execution to reach the lookup. -/
theorem forward_unregistered_head (m : Model) (sa sb : PyVal) (ga gb : Graph)
    (rel : Int) (fo : Bool) (name : String) (kw : List (String × PyVal)) (a b : PyVal)
    (hA : get_cls (m.encoder.run ga true kw).1 = Except.ok a)
    (hB : get_cls (m.encoder.run gb true kw).1 = Except.ok b)
    (hname : lookupHead m.classification_heads name = none) :
    forward m sa sb ga gb rel fo (some name) kw = Except.error PyErr.keyError := by
  simp [forward, effective_features_only, hA, hB, hname]

/-- Witness for C3: a freshly built model has no head, so `forward` with
head name `bclsmlp` raises `KeyError`. -/
theorem forward_unregistered_head_spot :
    forward m0 PyVal.pynone PyVal.pynone [] [] 0 false (some "bclsmlp") [] =
      Except.error PyErr.keyError :=
  forward_unregistered_head m0 PyVal.pynone PyVal.pynone [] [] 0 false "bclsmlp" []
    (PyVal.int 0) (PyVal.int 0) rfl rfl rfl

/-- C6: `get_cls` raises `ValueError` on every value that is neither
`None`, nor a tensor, nor a tuple, and such an encoder output makes the
enclosing `forward` call fail with that `ValueError`. -/
theorem getCls_domain_error :
    (∀ v : PyVal, v ≠ PyVal.pynone → (∀ t, v ≠ PyVal.tensor t) → (∀ xs, v ≠ PyVal.tup xs) →
        get_cls v = Except.error PyErr.valueError)
    ∧ (∀ (m : Model) (sa sb : PyVal) (ga gb : Graph) (rel : Int) (fo : Bool)
        (hn : Option String) (kw : List (String × PyVal)),
        get_cls (m.encoder.run ga (effective_features_only fo hn) kw).1 =
            Except.error PyErr.valueError →
        forward m sa sb ga gb rel fo hn kw = Except.error PyErr.valueError) := by
  constructor
  · intro v h1 h2 h3
    cases v with
    | pynone => exact absurd rfl h1
    | tensor t => exact absurd rfl (h2 t)
    | tup xs => exact absurd rfl (h3 xs)
    | int n => rfl
    | other s => rfl
  · intro m sa sb ga gb rel fo hn kw hA
    simp [forward, hA]

/-- Witness for C6 at the int `5`, a value of none of the three recognized
kinds. -/
theorem getCls_domain_error_spot :
    get_cls (PyVal.int 5) = Except.error PyErr.valueError :=
  getCls_domain_error.1 (PyVal.int 5) (by simp) (by simp) (by simp)

/-- C8: a successful `forward_cons_neg` call returns exactly four outputs:
the plain head call on the two pooled summaries and the relation, and the
head's `forward_deltaH`, `forward_deltaT` and `forward_NoDelta` variants
applied to the same three arguments. -/
theorem forward_cons_neg_four_outputs (m : Model) (sa sb : PyVal) (ga gb : Graph)
    (rel : Int) (fo : Bool) (name : String) (kw : List (String × PyVal))
    (head : Head) (a b : PyVal)
    (hA : get_cls (m.encoder.run ga true kw).1 = Except.ok a)
    (hB : get_cls (m.encoder.run gb true kw).1 = Except.ok b)
    (hname : lookupHead m.classification_heads name = some head) :
    forward_cons_neg m sa sb ga gb rel fo (some name) kw =
      Except.ok (head.forward a b rel, head.forward_deltaH a b rel,
                 head.forward_deltaT a b rel, head.forward_NoDelta a b rel) := by
  simp [forward_cons_neg, effective_features_only, hA, hB, hname]

/-- Witness for C8 on a model with a registered `bclsmlp` head and an
encoder returning `None` (pooled to the int `0`). -/
theorem forward_cons_neg_four_outputs_spot :
    forward_cons_neg mH PyVal.pynone PyVal.pynone [] [] 0 false (some "bclsmlp") [] =
      Except.ok (mlpHead0.forward (PyVal.int 0) (PyVal.int 0) 0,
                 mlpHead0.forward_deltaH (PyVal.int 0) (PyVal.int 0) 0,
                 mlpHead0.forward_deltaT (PyVal.int 0) (PyVal.int 0) 0,
                 mlpHead0.forward_NoDelta (PyVal.int 0) (PyVal.int 0) 0) :=
  forward_cons_neg_four_outputs mH PyVal.pynone PyVal.pynone [] [] 0 false "bclsmlp" []
    mlpHead0 (PyVal.int 0) (PyVal.int 0) rfl rfl rfl

/-- C9: whenever a head name is supplied, both encoder invocations of
`forward`, `forward_cons_neg` and `forward_embed` receive
`features_only = true` regardless of the caller's flag (so each call equals
the call with the flag forced to true); with no head name the caller's flag
is passed through.  The probing encoder makes the received flag observable
in the output. -/
theorem features_only_override :
    (∀ (fo : Bool) (n : String), effective_features_only fo (some n) = true)
    ∧ (∀ fo : Bool, effective_features_only fo none = fo)
    ∧ (∀ (m : Model) (sa sb : PyVal) (ga gb : Graph) (rel : Int) (fo : Bool) (n : String)
        (kw : List (String × PyVal)),
        forward m sa sb ga gb rel fo (some n) kw = forward m sa sb ga gb rel true (some n) kw)
    ∧ (∀ (m : Model) (sa sb : PyVal) (ga gb : Graph) (rel : Int) (fo : Bool) (n : String)
        (kw : List (String × PyVal)),
        forward_cons_neg m sa sb ga gb rel fo (some n) kw =
          forward_cons_neg m sa sb ga gb rel true (some n) kw)
    ∧ (∀ (m : Model) (sa sb : PyVal) (ga gb : Graph) (rel : Int) (fo : Bool) (n : String)
        (kw : List (String × PyVal)),
        forward_embed m sa sb ga gb rel fo (some n) kw =
          forward_embed m sa sb ga gb rel true (some n) kw)
    ∧ (∀ (sa sb : PyVal) (ga gb : Graph) (rel : Int) (fo : Bool) (n : String)
        (kw : List (String × PyVal)),
        forward_embed probeModel sa sb ga gb rel fo (some n) kw =
          Except.ok (PyVal.int 1, PyVal.int 1))
    ∧ (∀ (sa sb : PyVal) (ga gb : Graph) (rel : Int) (fo : Bool)
        (kw : List (String × PyVal)),
        forward_embed probeModel sa sb ga gb rel fo none kw =
          Except.ok (PyVal.int (if fo then 1 else 0), PyVal.int (if fo then 1 else 0))) :=
  ⟨fun _ _ => rfl, fun _ => rfl,
   fun _ _ _ _ _ _ _ _ _ => rfl,
   fun _ _ _ _ _ _ _ _ _ => rfl,
   fun _ _ _ _ _ _ _ _ _ => rfl,
   fun _ _ _ _ _ _ _ _ => rfl,
   fun _ _ _ _ _ _ _ => rfl⟩

/-- C7: the base preset fills `gnn_number_layer = 6` and
`gnn_embed_dim = 384` when the caller left them unset; the tiny preset
yields `gnn_number_layer = 2` and the large preset `gnn_number_layer = 12`;
every preset yields `gnn_embed_dim = 384` unless it was set beforehand, in
which case the caller's value survives; and tiny / large each delegate to
the base preset after filling their own defaults. -/
theorem architecture_presets (a : ArchArgs) :
    (a.gnn_number_layer = none →
      (base_architecture a).gnn_number_layer = some 6
      ∧ (tiny_architecture a).gnn_number_layer = some 2
      ∧ (large_architecture a).gnn_number_layer = some 12)
    ∧ (a.gnn_embed_dim = none →
      (base_architecture a).gnn_embed_dim = some 384
      ∧ (tiny_architecture a).gnn_embed_dim = some 384
      ∧ (large_architecture a).gnn_embed_dim = some 384)
    ∧ (∀ v, a.gnn_embed_dim = some v →
      (base_architecture a).gnn_embed_dim = some v
      ∧ (tiny_architecture a).gnn_embed_dim = some v
      ∧ (large_architecture a).gnn_embed_dim = some v)
    ∧ tiny_architecture a = base_architecture (tiny_defaults a)
    ∧ large_architecture a = base_architecture (large_defaults a) := by
  refine ⟨fun h => ?_, fun h => ?_, fun v h => ?_, rfl, rfl⟩ <;>
    simp [base_architecture, tiny_architecture, large_architecture,
      tiny_defaults, large_defaults, h]

/-- Witness for C7 on a blank configuration (both fields unset) and on one
with `gnn_embed_dim` preset to `100`. -/
theorem architecture_presets_spot :
    (base_architecture ⟨none, none⟩).gnn_number_layer = some 6
    ∧ (tiny_architecture ⟨none, none⟩).gnn_number_layer = some 2
    ∧ (large_architecture ⟨none, none⟩).gnn_number_layer = some 12
    ∧ (tiny_architecture ⟨none, some 100⟩).gnn_embed_dim = some 100 :=
  ⟨((architecture_presets ⟨none, none⟩).1 rfl).1,
   ((architecture_presets ⟨none, none⟩).1 rfl).2.1,
   ((architecture_presets ⟨none, none⟩).1 rfl).2.2,
   ((architecture_presets ⟨none, some 100⟩).2.2.1 100 rfl).2.1⟩

/-- C4: registering a head under any name outside `bclsmlp` / `bclsFeatInt`
raises `NotImplementedError` and leaves the whole model state, in
particular the head mapping, exactly as it was. -/
theorem register_unsupported_name (m : Model) (name : String)
    (nc innerDim : Option Nat)
    (h1 : name ≠ "bclsmlp") (h2 : name ≠ "bclsFeatInt") :
    (register_classification_head m name nc innerDim).err =
        some PyErr.notImplementedError
    ∧ (register_classification_head m name nc innerDim).model = m := by
  simp [register_classification_head, h1, h2]

/-- Witness for C4 at the unsupported name `unknown`. -/
theorem register_unsupported_name_spot :
    (register_classification_head m0 "unknown" none none).err =
        some PyErr.notImplementedError
    ∧ (register_classification_head m0 "unknown" none none).model = m0 :=
  register_unsupported_name m0 "unknown" none none (by decide) (by decide)

/-- Looking up the key just inserted finds the inserted head. -/
theorem lookupHead_insertHead_self (hs : List (String × Head)) (n : String) (h : Head) :
    lookupHead (insertHead hs n h) n = some h := by
  induction hs with
  | nil => simp [insertHead, lookupHead]
  | cons kv rest ih =>
    obtain ⟨k, v⟩ := kv
    by_cases hk : k = n
    · simp [insertHead, lookupHead, hk]
    · simp [insertHead, lookupHead, hk, ih]

/-- Looking up any other key is unchanged by an insertion. -/
theorem lookupHead_insertHead_ne (hs : List (String × Head)) (n n' : String) (h : Head)
    (hne : n' ≠ n) :
    lookupHead (insertHead hs n h) n' = lookupHead hs n' := by
  induction hs with
  | nil => simp [insertHead, lookupHead, Ne.symm hne]
  | cons kv rest ih =>
    obtain ⟨k, v⟩ := kv
    by_cases hk : k = n
    · subst hk
      simp [insertHead, lookupHead, Ne.symm hne]
    · by_cases hk' : k = n'
      · simp [insertHead, lookupHead, hk, hk', hne]
      · simp [insertHead, lookupHead, hk, hk', ih]

/-- C5: registering a supported name that is already present does not fail:
it replaces the stored head with the freshly built one, and the warning
fires exactly when the requested `num_classes` or `inner_dim` differs from
the sizing recorded on the existing head. -/
theorem register_existing_head_override (m : Model) (name : String)
    (nc innerDim : Option Nat) (prev : Head)
    (hsup : name = "bclsmlp" ∨ name = "bclsFeatInt")
    (hprev : lookupHead m.classification_heads name = some prev) :
    (register_classification_head m name nc innerDim).err = none
    ∧ lookupHead
        (register_classification_head m name nc innerDim).model.classification_heads name
        = some (builtHead m name nc innerDim)
    ∧ ((register_classification_head m name nc innerDim).warned = true
        ↔ (nc ≠ prev.num_classes ∨ innerDim ≠ some prev.inner_dim)) := by
  refine ⟨?_, ?_, ?_⟩
  · simp [register_classification_head, if_pos hsup]
  · simp [register_classification_head, if_pos hsup, lookupHead_insertHead_self]
  · simp [register_classification_head, if_pos hsup, hprev, decide_eq_true_eq]

/-- Witness for C5: re-registering `bclsmlp` with `num_classes = 3` over a
head sized with `num_classes = 2` succeeds, replaces the head, and warns. -/
theorem register_existing_head_override_spot :
    (register_classification_head mH "bclsmlp" (some 3) none).err = none
    ∧ lookupHead
        (register_classification_head mH "bclsmlp" (some 3) none).model.classification_heads "bclsmlp"
        = some (builtHead mH "bclsmlp" (some 3) none)
    ∧ ((register_classification_head mH "bclsmlp" (some 3) none).warned = true
        ↔ ((some 3 : Option Nat) ≠ mlpHead0.num_classes
            ∨ (none : Option Nat) ≠ some mlpHead0.inner_dim)) :=
  register_existing_head_override mH "bclsmlp" (some 3) none mlpHead0 (Or.inl rfl) rfl

/-- C10: a successful registration under a supported name changes only the
mapping entry under that name: the configuration, the encoder and every
head stored under any other name are unchanged. -/
theorem register_supported_frame (m : Model) (name : String)
    (nc innerDim : Option Nat)
    (hsup : name = "bclsmlp" ∨ name = "bclsFeatInt") :
    (register_classification_head m name nc innerDim).err = none
    ∧ (register_classification_head m name nc innerDim).model.args = m.args
    ∧ (register_classification_head m name nc innerDim).model.encoder = m.encoder
    ∧ ∀ n', n' ≠ name →
        lookupHead
          (register_classification_head m name nc innerDim).model.classification_heads n'
          = lookupHead m.classification_heads n' := by
  refine ⟨?_, ?_, ?_, fun n' hne => ?_⟩
  · simp [register_classification_head, if_pos hsup]
  · simp [register_classification_head, if_pos hsup]
  · simp [register_classification_head, if_pos hsup]
  · have hfr := lookupHead_insertHead_ne m.classification_heads name n'
      (builtHead m name nc innerDim) hne
    simp [register_classification_head, if_pos hsup, hfr]

/-- Witness for C10: registering `bclsmlp` on a fresh model succeeds,
leaves `args` and the encoder untouched, and leaves the (absent) entry
under `bclsFeatInt` absent. -/
theorem register_supported_frame_spot :
    (register_classification_head m0 "bclsmlp" (some 2) none).err = none
    ∧ (register_classification_head m0 "bclsmlp" (some 2) none).model.args = m0.args
    ∧ (register_classification_head m0 "bclsmlp" (some 2) none).model.encoder = m0.encoder
    ∧ lookupHead
        (register_classification_head m0 "bclsmlp" (some 2) none).model.classification_heads
        "bclsFeatInt"
        = lookupHead m0.classification_heads "bclsFeatInt" :=
  have h := register_supported_frame m0 "bclsmlp" (some 2) none (Or.inl rfl)
  ⟨h.1, h.2.1, h.2.2.1, h.2.2.2 "bclsFeatInt" (by decide)⟩

end DrugGCN
